import Mathlib

/-!
Verification of the uringpp reactor core (src/include/uringpp/event_loop.h,
awaitable.h, error.h, file.h, socket.h, dir.h, listener.h, pipe.h) against its
natural-language specification.

The liburing ring pair is embedded as an explicit state record:
* the submission queue is a bounded list of entries claimed but not yet
  submitted (`io_uring_get_sqe` claims a slot when there is room,
  `io_uring_submit` moves every claimed slot to the kernel);
* the completion queue is the list of every entry the kernel has posted
  together with a count of acknowledged entries (`io_uring_cq_advance`);
* `cqe_count_` is the event loop's own counter of drained-but-unacknowledged
  completion entries.

Completion tokens (the `user_data` field that C++ fills with the address of an
`sqe_awaitable`) are embedded as `Option BridgeId`: `none` is the null pointer,
`some id` keys an association list of live bridges.  Coroutine continuations
are embedded as scripts: the list of operation codes the resumed handler will
issue before suspending again.  Every operation returns an event trace so that
ordering claims can be stated over observable behaviour.
-/

namespace uringpp

/-! ### io_uring opcodes (linux io_uring.h enumeration values) -/

def IORING_OP_NOP : Nat := 0
def IORING_OP_READV : Nat := 1
def IORING_OP_WRITEV : Nat := 2
def IORING_OP_FSYNC : Nat := 3
def IORING_OP_ACCEPT : Nat := 13
def IORING_OP_CONNECT : Nat := 16
def IORING_OP_OPENAT : Nat := 18
def IORING_OP_CLOSE : Nat := 19
def IORING_OP_READ : Nat := 22
def IORING_OP_WRITE : Nat := 23

/-! ### Data model -/

abbrev BridgeId := Nat

/-- One submission-queue entry: the operation code, the target file
descriptor, the completion token (`user_data`; `none` embeds the null
pointer), and the per-submission flag byte set by `io_uring_sqe_set_flags`. -/
structure Sqe where
  opcode : Nat
  fd : Int
  userData : Option BridgeId
  flags : Nat
  deriving Repr, DecidableEq

/-- One completion-queue entry: the signed result code and the token echoed
back from the matching submission's `user_data`. -/
structure Cqe where
  res : Int
  token : Option BridgeId
  deriving Repr, DecidableEq

/-- The awaitable bridge (`sqe_awaitable`, awaitable.h:8-23) as seen by the
drain step: the continuation recorded by `await_suspend` (embedded as the
script of opcodes the resumed coroutine issues next) and the stored result
code `rc_` (`none` until a completion for this bridge is drained). -/
structure Bridge where
  script : List Nat
  rc : Option Int
  deriving Repr, DecidableEq

/-- The reactor state: the `io_uring` ring pair plus the members of
`event_loop` (event_loop.h:32-35).  `cqAll` lists every completion the kernel
has posted, `cqAcked` counts those acknowledged via `io_uring_cq_advance`
(the CQ head), so the visible completion entries are `cqAll.drop cqAcked`. -/
structure LoopState where
  sqCapacity : Nat
  sqPending : List Sqe
  submittedOps : List Sqe
  cqAll : List Cqe
  cqAcked : Nat
  cqeCount : Nat
  bridges : List (BridgeId × Bridge)
  nextBridge : BridgeId
  supportedOps : List Nat
  deriving Repr, DecidableEq

/-- Observable events of the reactor, in program order. -/
inductive Event where
  | advanced (n : Nat)
  | submitted (n : Nat)
  | claimed (idx : Nat)
  | encoded (idx : Nat) (opcode : Nat)
  | tokenSet (idx : Nat) (id : BridgeId)
  | stored (id : BridgeId) (res : Int)
  | resumed (id : BridgeId)
  deriving Repr, DecidableEq

/-- Fatal outcomes: a failed capability assertion, `throw std::bad_alloc` in
`get_sqe`, and the undefined behaviour of the drain step dereferencing a
completion token that is null or does not refer to a live bridge. -/
inductive Err where
  | capabilityViolation
  | badAlloc
  | nullTokenDeref
  | danglingToken
  deriving Repr, DecidableEq

/-- Result of a fallible reactor operation, keeping the mutated state and the
event trace alongside (C++ exceptions leave prior ring mutations in place). -/
inductive Res (α : Type) where
  | ok (a : α)
  | err (e : Err)
  deriving Repr, DecidableEq

/-! ### liburing primitives -/

/-- Embeds `io_uring_get_sqe`: a slot is available while fewer entries are
claimed than the ring holds; claiming appends a blank entry and returns its
index. -/
def io_uring_get_sqe (s : LoopState) : Option (Nat × LoopState) :=
  if s.sqPending.length < s.sqCapacity then
    some (s.sqPending.length,
      { s with sqPending := s.sqPending ++ [⟨IORING_OP_NOP, 0, none, 0⟩] })
  else none

/-- Embeds `io_uring_submit`: every claimed slot is handed to the kernel,
emptying the submission queue; returns the number submitted. -/
def io_uring_submit (s : LoopState) : Nat × LoopState :=
  (s.sqPending.length,
   { s with submittedOps := s.submittedOps ++ s.sqPending, sqPending := [] })

/-- Embeds `io_uring_cq_advance n`: acknowledges `n` completion entries by
moving the CQ head. -/
def io_uring_cq_advance (n : Nat) (s : LoopState) : LoopState :=
  { s with cqAcked := s.cqAcked + n }

/-- Embeds `io_uring_prep_*` at slot `i`: fills the entry with the opcode and
fd and zeroes `user_data` and flags, as `io_uring_prep_rw` does. -/
def io_uring_prep (i : Nat) (opcode : Nat) (fd : Int) (s : LoopState) :
    LoopState :=
  { s with sqPending := s.sqPending.set i ⟨opcode, fd, none, 0⟩ }

/-- Embeds `io_uring_sqe_set_flags` at slot `i`. -/
def io_uring_sqe_set_flags (i : Nat) (fl : Nat) (s : LoopState) : LoopState :=
  let e :=
    match s.sqPending.get? i with
    | some e => { e with flags := fl }
    | none => (⟨IORING_OP_NOP, 0, none, 0⟩ : Sqe)
  { s with sqPending := s.sqPending.set i e }

/-- Embeds `io_uring_sqe_set_data` at slot `i`. -/
def io_uring_sqe_set_data (i : Nat) (d : Option BridgeId) (s : LoopState) :
    LoopState :=
  let e :=
    match s.sqPending.get? i with
    | some e => { e with userData := d }
    | none => (⟨IORING_OP_NOP, 0, none, 0⟩ : Sqe)
  { s with sqPending := s.sqPending.set i e }

/-! ### event_loop private helpers -/

/-- Embeds `event_loop::get_sqe` (event_loop.h:82-95): try a direct slot
allocation; on a full queue acknowledge the `cqe_count_` drained entries,
reset the counter, submit everything pending, and retry exactly once; a
second failure is `throw std::bad_alloc()`. -/
def get_sqe (s : LoopState) : Res Nat × LoopState × List Event :=
  match io_uring_get_sqe s with
  | some (i, s1) => (.ok i, s1, [.claimed i])
  | none =>
    let n := s.cqeCount
    let s1 := io_uring_cq_advance n s
    let s2 := { s1 with cqeCount := 0 }
    let (m, s3) := io_uring_submit s2
    match io_uring_get_sqe s3 with
    | some (i, s4) =>
        (.ok i, s4, [.advanced n, .submitted m, .claimed i])
    | none => (.err .badAlloc, s3, [.advanced n, .submitted m])

/-- Embeds the shared body of every primitive operation method of
`event_loop` (readv, writev, read, write, ..., unlinkat; event_loop.h:116-345):
`assert(supported_ops_.test(op))`, then `get_sqe()`, then the
`io_uring_prep_*` encode, then `await_sqe` which applies the flag byte and
returns the awaitable over that slot. -/
def op_method (opcode : Nat) (fd : Int) (sqe_flags : Nat) (s : LoopState) :
    Res Nat × LoopState × List Event :=
  if opcode ∈ s.supportedOps then
    match get_sqe s with
    | (.ok i, s1, ev) =>
      let s2 := io_uring_prep i opcode fd s1
      let s3 := io_uring_sqe_set_flags i sqe_flags s2
      (.ok i, s3, ev ++ [.encoded i opcode])
    | (.err e, s1, ev) => (.err e, s1, ev)
  else (.err .capabilityViolation, s, [])

/-- Embeds `event_loop::read` (event_loop.h:132-138). -/
def event_loop_read (fd : Int) (sqe_flags : Nat) (s : LoopState) :
    Res Nat × LoopState × List Event :=
  op_method IORING_OP_READ fd sqe_flags s

/-- Embeds `event_loop::readv` (event_loop.h:116-122). -/
def event_loop_readv (fd : Int) (sqe_flags : Nat) (s : LoopState) :
    Res Nat × LoopState × List Event :=
  op_method IORING_OP_READV fd sqe_flags s

/-- Embeds `event_loop::close` (event_loop.h:268-273). -/
def event_loop_close (fd : Int) (sqe_flags : Nat) (s : LoopState) :
    Res Nat × LoopState × List Event :=
  op_method IORING_OP_CLOSE fd sqe_flags s

/-! ### The awaitable bridge -/

/-- Embeds `sqe_awaitable::await_ready` (awaitable.h:16): always false, the
coroutine always suspends. -/
def await_ready : Bool := false

/-- Embeds `sqe_awaitable::await_suspend` (awaitable.h:17-21): record the
coroutine continuation in `h_`, then write the bridge's own address into the
slot as the completion token via `io_uring_sqe_set_data`, then return true
(suspend).  Registering the bridge in `bridges` embeds the awaitable object
becoming reachable from the token. -/
def await_suspend (i : Nat) (script : List Nat) (s : LoopState) :
    (Bool × BridgeId) × LoopState × List Event :=
  let id := s.nextBridge
  let s1 := { s with
    bridges := s.bridges ++ [(id, ⟨script, none⟩)],
    nextBridge := id + 1 }
  let s2 := io_uring_sqe_set_data i (some id) s1
  ((true, id), s2, [.tokenSet i id])

/-- Embeds `sqe_awaitable::await_resume` (awaitable.h:22): the awaited value
is the stored result code `rc_`, whatever its sign. -/
def await_resume (b : Bridge) : Option Int := b.rc

/-- A primitive operation method immediately awaited by the calling
coroutine (the pattern of every façade call such as
`co_await loop->openat(...)`): encode the operation, then run the suspension
point, yielding the slot index and the bridge id. -/
def issue_await (opcode : Nat) (fd : Int) (sqe_flags : Nat)
    (script : List Nat) (s : LoopState) :
    Res (Nat × BridgeId) × LoopState × List Event :=
  match op_method opcode fd sqe_flags s with
  | (.ok i, s1, ev) =>
    let ((_, id), s2, ev2) := await_suspend i script s1
    (.ok (i, id), s2, ev ++ ev2)
  | (.err e, s1, ev) => (.err e, s1, ev)

/-- Modelled from the spec: `event_loop::close_detach` is called by every
façade destructor (file.h:117, socket.h:115, dir.h:52, listener.h:139,
pipe.h:100-103) but its definition is not under src/.  Spec §6 describes it
as the "fire-and-forget close (submits a close with no registered
continuation)" and §9 as "Fire-and-forget close with a null token → model
explicitly as submit with no registration".  It therefore encodes a close
operation exactly as `event_loop::close` does but never runs a suspension
point: no bridge is created and the slot's completion token stays null. -/
def close_detach (fd : Int) (s : LoopState) :
    Res Unit × LoopState × List Event :=
  match event_loop_close fd 0 s with
  | (.ok _, s1, ev) => (.ok (), s1, ev)
  | (.err e, s1, ev) => (.err e, s1, ev)

/-! ### Resumption and the poll cycle -/

/-- Looks up a live bridge by its token. -/
def lookupBridge (id : BridgeId) (bs : List (BridgeId × Bridge)) :
    Option Bridge :=
  (bs.find? (fun p => p.1 = id)).map (fun p => p.2)

/-- Embeds `awaitable->rc_ = cqe->res` for the bridge keyed by `id`. -/
def setRc (id : BridgeId) (res : Int) (s : LoopState) : LoopState :=
  let upd := fun (p : BridgeId × Bridge) =>
    if p.1 = id then (p.1, { p.2 with rc := some res }) else p
  { s with bridges := s.bridges.map upd }

/-- Runs a resumed continuation: the coroutine issues each scripted operation
and awaits it (each spawned bridge carries an empty follow-on script).  A C++
exception thrown by a nested `get_sqe` propagates out of `resume()`. -/
def run_script : List Nat → LoopState → Res Unit × LoopState × List Event
  | [], s => (.ok (), s, [])
  | op :: rest, s =>
    match issue_await op 0 0 [] s with
    | (.ok _, s1, ev) =>
      let (r, s2, ev2) := run_script rest s1
      (r, s2, ev ++ ev2)
    | (.err e, s1, ev) => (.err e, s1, ev)

/-- One iteration of the drain loop body (event_loop.h:352-358):
`++cqe_count_`, read the token with `io_uring_cqe_get_data`, cast it to
`sqe_awaitable*` and dereference it — with no null or liveness check — to
store `cqe->res` into `rc_` and resume `h_`.  A null token or a token not
referring to a live bridge is a wild dereference, embedded as a fatal
outcome. -/
def drainStep (c : Cqe) (s : LoopState) : Res Unit × LoopState × List Event :=
  let s1 := { s with cqeCount := s.cqeCount + 1 }
  match c.token with
  | none => (.err .nullTokenDeref, s1, [])
  | some id =>
    match lookupBridge id s1.bridges with
    | none => (.err .danglingToken, s1, [])
    | some b =>
      let s2 := setRc id c.res s1
      match run_script b.script s2 with
      | (.ok _, s3, ev) => (.ok (), s3, [.stored id c.res, .resumed id] ++ ev)
      | (.err e, s3, ev) => (.err e, s3, [.stored id c.res, .resumed id] ++ ev)

/-- The drain loop `io_uring_for_each_cqe` (event_loop.h:352-358) over the
completion entries visible when the loop starts.  The loop-local `head`
advances over a fixed tail snapshot: nothing posts completions mid-drain, so
iterating the pre-computed list is exact. -/
def drain : List Cqe → LoopState → Res Unit × LoopState × List Event
  | [], s => (.ok (), s, [])
  | c :: rest, s =>
    match drainStep c s with
    | (.ok _, s1, ev) =>
      let (r, s2, ev2) := drain rest s1
      (r, s2, ev ++ ev2)
    | (.err e, s1, ev) => (.err e, s1, ev)

/-- Embeds `event_loop::poll` (event_loop.h:347-361):
`io_uring_submit_and_wait(&ring_, 1)` submits everything pending and blocks
until the kernel has posted at least one completion (`delivered` is what the
kernel posts); then the drain loop runs; then `io_uring_cq_advance` is called
with the final `cqe_count_`, which is reset to zero. -/
def poll (delivered : List Cqe) (s : LoopState) :
    Res Unit × LoopState × List Event :=
  let (m, s1) := io_uring_submit s
  let s2 := { s1 with cqAll := s1.cqAll ++ delivered }
  let avail := s2.cqAll.drop s2.cqAcked
  match drain avail s2 with
  | (.ok _, s3, ev) =>
    let n := s3.cqeCount
    let s4 := io_uring_cq_advance n s3
    (.ok (), { s4 with cqeCount := 0 }, [.submitted m] ++ ev ++ [.advanced n])
  | (.err e, s3, ev) => (.err e, s3, [.submitted m] ++ ev)

/-- Embeds the in-header constructor `event_loop::event_loop`
(event_loop.h:103-114).  The member `unsigned int cqe_count_`
(event_loop.h:33) has no default member initializer and this constructor
neither lists it in a mem-initializer nor assigns it, so its initial value is
indeterminate; `garbage` stands for whatever value the storage happens to
hold.  (The out-of-line constructor in src/src/event_loop.cc:12-14 instead
initializes it with `cqe_count_(0)`.) -/
def event_loop_init (entries : Nat) (supported : List Nat) (garbage : Nat) :
    LoopState :=
  { sqCapacity := entries
    sqPending := []
    submittedOps := []
    cqAll := []
    cqAcked := 0
    cqeCount := garbage
    bridges := []
    nextBridge := 0
    supportedOps := supported }

/-! ### Trace projections -/

/-- Bridge ids resumed, in trace order. -/
def resumedIds (ev : List Event) : List BridgeId :=
  ev.filterMap (fun e => match e with | .resumed id => some id | _ => none)

/-- The (token, result) pairs stored into bridges, in trace order. -/
def storedPairs (ev : List Event) : List (BridgeId × Int) :=
  ev.filterMap (fun e => match e with | .stored id r => some (id, r) | _ => none)

/-- Number of `io_uring_submit` calls recorded in a trace. -/
def submitCount (ev : List Event) : Nat :=
  (ev.filter (fun e => match e with | .submitted _ => true | _ => false)).length

/-- Number of operations of the given opcode encoded into slots. -/
def encodedCount (opcode : Nat) (ev : List Event) : Nat :=
  (ev.filter (fun e => match e with
     | .encoded _ op => op = opcode
     | _ => false)).length

/-- Number of completion tokens registered (suspension points run). -/
def tokenSetCount (ev : List Event) : Nat :=
  (ev.filter (fun e => match e with | .tokenSet _ _ => true | _ => false)).length

/-- Total number of completion entries acknowledged by a trace's
`io_uring_cq_advance` calls. -/
def advancedTotal (ev : List Event) : Nat :=
  (ev.map (fun e => match e with | .advanced n => n | _ => 0)).sum

/-- Events a drain pass emits when resuming bridges; everything an issuing
path emits is a non-drain event. -/
def isIssueEvent : Event → Bool
  | .stored _ _ => false
  | .resumed _ => false
  | _ => true

/-! ### error.h and the façade wrappers -/

/-- Embeds `check_nerrno` (error.h:41-45): throws exactly when the negated
errno value is below zero. -/
def check_nerrno (nerrno : Int) : Bool :=
  decide (nerrno < 0)

/-- A façade wrapper holding an event-loop reference and one descriptor:
`file` (file.h:21-24), `socket` (socket.h:25-27), `dir` (dir.h:17-20) and
`listener` (listener.h:24-26) have textually identical close, destructor and
move-constructor logic over the single `fd_` member. -/
structure Wrapper where
  fd : Int
  deriving Repr, DecidableEq

/-- Embeds `file::open` (file.h:43-48) after the awaited `openat` completes:
`check_nerrno(fd, "failed to open file")` throws exactly when the awaited
code is negative, otherwise the file object wraps the descriptor. -/
def file_open_after_await (fd : Int) : Option Wrapper :=
  if check_nerrno fd then none else some ⟨fd⟩

/-- Embeds `file::close` (file.h:104-109) (and the identical `socket::close`
socket.h:124-129, `dir::close` dir.h:61-66, `listener::close`
listener.h:125-130) run to completion: when `fd_ > 0` the coroutine awaits a
suspending close of the descriptor and then stores -1 into `fd_`; otherwise
nothing happens. -/
def wrapper_close (f : Wrapper) (s : LoopState) :
    Res Unit × Wrapper × LoopState × List Event :=
  if f.fd > 0 then
    match issue_await IORING_OP_CLOSE f.fd 0 [] s with
    | (.ok _, s1, ev) => (.ok (), ⟨-1⟩, s1, ev)
    | (.err e, s1, ev) => (.err e, f, s1, ev)
  else (.ok (), f, s, [])

/-- Embeds `file::~file` (file.h:115-119) (and the identical
`socket::~socket` socket.h:113-117, `dir::~dir` dir.h:50-54,
`listener::~listener` listener.h:137-141): when `fd_ > 0` a detached close is
issued for the descriptor; otherwise nothing happens. -/
def wrapper_dtor (f : Wrapper) (s : LoopState) :
    Res Unit × LoopState × List Event :=
  if f.fd > 0 then close_detach f.fd s
  else (.ok (), s, [])

/-- Embeds the move constructor `file::file(file&&)` (file.h:88-89) (and the
identical ones in socket.h:43-46, dir.h:43-44, listener.h:89-90): the target
takes the descriptor and `std::exchange` leaves the source's `fd_` at -1.
The result is (target, source-after-move). -/
def wrapper_move (f : Wrapper) : Wrapper × Wrapper :=
  (⟨f.fd⟩, ⟨-1⟩)

/-- Embeds the `pipe` wrapper (pipe.h:11-14): two descriptors. -/
structure PipeW where
  fd0 : Int
  fd1 : Int
  deriving Repr, DecidableEq

/-- Embeds the pipe move constructor (pipe.h:32-34): both descriptors are
exchanged to -1 in the source. -/
def pipe_move (p : PipeW) : PipeW × PipeW :=
  (⟨p.fd0, p.fd1⟩, ⟨-1, -1⟩)

/-- Embeds `pipe::~pipe` (pipe.h:98-105): a detached close for each end
whose descriptor is still above zero. -/
def pipe_dtor (p : PipeW) (s : LoopState) :
    Res Unit × LoopState × List Event :=
  if p.fd0 > 0 then
    match close_detach p.fd0 s with
    | (.ok _, s1, ev) =>
      if p.fd1 > 0 then
        match close_detach p.fd1 s1 with
        | (r, s2, ev2) => (r, s2, ev ++ ev2)
      else (.ok (), s1, ev)
    | (.err e, s1, ev) => (.err e, s1, ev)
  else if p.fd1 > 0 then close_detach p.fd1 s
  else (.ok (), s, [])

/-- Lifecycle actions on a single wrapper chain: an explicit `close()` call,
or being the source of a move construction. -/
inductive WAction where
  | close
  | moveOut
  deriving Repr, DecidableEq

/-- Runs a wrapper through a sequence of lifecycle actions and finally its
destructor, accumulating the reactor trace. -/
def lifecycle : Wrapper → LoopState → List WAction →
    LoopState × List Event
  | f, s, [] =>
    match wrapper_dtor f s with
    | (_, s1, ev) => (s1, ev)
  | f, s, .close :: rest =>
    match wrapper_close f s with
    | (_, f1, s1, ev) =>
      match lifecycle f1 s1 rest with
      | (s2, ev2) => (s2, ev ++ ev2)
  | f, s, .moveOut :: rest =>
    lifecycle (wrapper_move f).2 s rest

end uringpp

/-! ## Trace and state lemmas -/

namespace uringpp

lemma resumedIds_append (a b : List Event) :
    resumedIds (a ++ b) = resumedIds a ++ resumedIds b := by
  simp [resumedIds]

lemma storedPairs_append (a b : List Event) :
    storedPairs (a ++ b) = storedPairs a ++ storedPairs b := by
  simp [storedPairs]

lemma resumedIds_of_issue (ev : List Event) (h : ∀ e ∈ ev, isIssueEvent e) :
    resumedIds ev = [] := by
  refine List.filterMap_eq_nil_iff.mpr ?_
  intro e he
  have := h e he
  cases e <;> simp_all [isIssueEvent]

lemma storedPairs_of_issue (ev : List Event) (h : ∀ e ∈ ev, isIssueEvent e) :
    storedPairs ev = [] := by
  refine List.filterMap_eq_nil_iff.mpr ?_
  intro e he
  have := h e he
  cases e <;> simp_all [isIssueEvent]

lemma get_sqe_events (s : LoopState) :
    ∀ e ∈ (get_sqe s).2.2, isIssueEvent e := by
  simp only [get_sqe]
  split
  · simp [isIssueEvent]
  · split <;> simp [isIssueEvent]

lemma op_method_events (opcode : Nat) (fd : Int) (fl : Nat) (s : LoopState) :
    ∀ e ∈ (op_method opcode fd fl s).2.2, isIssueEvent e := by
  unfold op_method
  split
  · split
    · rename_i i s1 ev heq
      intro e he
      simp only [List.mem_append] at he
      rcases he with he | he
      · exact (by simpa [heq] using get_sqe_events s e (by simp [heq, he]))
      · simp only [List.mem_singleton] at he
        subst he
        simp [isIssueEvent]
    · rename_i e1 s1 ev heq
      intro e he
      exact (by simpa [heq] using get_sqe_events s e (by simp [heq, he]))
  · simp

end uringpp

namespace uringpp

/-- The blank entry a freshly claimed slot holds. -/
def blankSqe : Sqe := ⟨IORING_OP_NOP, 0, none, 0⟩

lemma get_sqe_direct (s : LoopState) (h : s.sqPending.length < s.sqCapacity) :
    get_sqe s = (.ok s.sqPending.length,
      { s with sqPending := s.sqPending ++ [blankSqe] },
      [.claimed s.sqPending.length]) := by
  simp [get_sqe, io_uring_get_sqe, h, blankSqe]

lemma get_sqe_flush (s : LoopState) (h : ¬ s.sqPending.length < s.sqCapacity)
    (h2 : 0 < s.sqCapacity) :
    get_sqe s = (.ok 0,
      { s with cqAcked := s.cqAcked + s.cqeCount, cqeCount := 0,
               submittedOps := s.submittedOps ++ s.sqPending,
               sqPending := [blankSqe] },
      [.advanced s.cqeCount, .submitted s.sqPending.length, .claimed 0]) := by
  simp [get_sqe, io_uring_get_sqe, io_uring_submit, io_uring_cq_advance, h,
        h2, blankSqe]

lemma get_sqe_throw (s : LoopState) (h : ¬ s.sqPending.length < s.sqCapacity)
    (h2 : ¬ 0 < s.sqCapacity) :
    get_sqe s = (.err .badAlloc,
      { s with cqAcked := s.cqAcked + s.cqeCount, cqeCount := 0,
               submittedOps := s.submittedOps ++ s.sqPending,
               sqPending := [] },
      [.advanced s.cqeCount, .submitted s.sqPending.length]) := by
  simp [get_sqe, io_uring_get_sqe, io_uring_submit, io_uring_cq_advance, h, h2]

lemma op_method_unsupported (opcode : Nat) (fd : Int) (fl : Nat)
    (s : LoopState) (h : opcode ∉ s.supportedOps) :
    op_method opcode fd fl s = (.err .capabilityViolation, s, []) := by
  simp [op_method, h]

lemma op_method_ok_char (opcode : Nat) (fd : Int) (fl : Nat)
    (s s1 : LoopState) (i : Nat) (ev : List Event)
    (h : op_method opcode fd fl s = (.ok i, s1, ev)) :
    ∃ s0 ev0, get_sqe s = (.ok i, s0, ev0)
      ∧ ev = ev0 ++ [.encoded i opcode]
      ∧ s1 = io_uring_sqe_set_flags i fl (io_uring_prep i opcode fd s0)
      ∧ opcode ∈ s.supportedOps := by
  by_cases hsup : opcode ∈ s.supportedOps
  · simp only [op_method, hsup, if_pos] at h
    rcases hg : get_sqe s with ⟨r0, s0, ev0⟩
    rw [hg] at h
    cases r0 with
    | ok j =>
      simp only [Res.ok.injEq, Prod.mk.injEq] at h
      obtain ⟨h1, h2, h3⟩ := h
      subst h1
      exact ⟨s0, ev0, rfl, h3.symm, h2.symm, hsup⟩
    | err e => simp at h
  · simp [op_method, hsup] at h

lemma op_method_err_char (opcode : Nat) (fd : Int) (fl : Nat)
    (s s1 : LoopState) (e : Err) (ev : List Event)
    (h : op_method opcode fd fl s = (.err e, s1, ev)) :
    (e = .capabilityViolation ∧ s1 = s ∧ ev = [])
    ∨ (opcode ∈ s.supportedOps ∧ get_sqe s = (.err e, s1, ev)) := by
  by_cases hsup : opcode ∈ s.supportedOps
  · simp only [op_method, hsup, if_pos] at h
    rcases hg : get_sqe s with ⟨r0, s0, ev0⟩
    rw [hg] at h
    cases r0 with
    | ok j => simp at h
    | err e2 =>
      simp only [Res.err.injEq, Prod.mk.injEq] at h
      obtain ⟨h1, h2, h3⟩ := h
      subst h1 h2 h3
      exact Or.inr ⟨hsup, rfl⟩
  · simp only [op_method, hsup, if_neg, not_false_iff] at h
    simp only [Res.err.injEq, Prod.mk.injEq] at h
    obtain ⟨h1, h2, h3⟩ := h
    exact Or.inl ⟨h1.symm, h2.symm, h3.symm⟩

lemma issue_await_ok_char (opcode : Nat) (fd : Int) (fl : Nat)
    (script : List Nat) (s s2 : LoopState) (i : Nat) (id : BridgeId)
    (ev : List Event)
    (h : issue_await opcode fd fl script s = (.ok (i, id), s2, ev)) :
    ∃ s1 ev0, op_method opcode fd fl s = (.ok i, s1, ev0)
      ∧ id = s1.nextBridge
      ∧ s2 = io_uring_sqe_set_data i (some id)
          { s1 with bridges := s1.bridges ++ [(id, ⟨script, none⟩)],
                    nextBridge := id + 1 }
      ∧ ev = ev0 ++ [.tokenSet i id] := by
  rcases hop : op_method opcode fd fl s with ⟨r0, s1, ev0⟩
  cases r0 with
  | ok j =>
    simp only [issue_await, hop, await_suspend] at h
    simp only [Res.ok.injEq, Prod.mk.injEq] at h
    obtain ⟨⟨h1, h2⟩, h3, h4⟩ := h
    subst h1 h2
    exact ⟨s1, ev0, rfl, rfl, h3.symm, h4.symm⟩
  | err e =>
    simp only [issue_await, hop] at h
    simp at h

lemma issue_await_err_char (opcode : Nat) (fd : Int) (fl : Nat)
    (script : List Nat) (s s2 : LoopState) (e : Err) (ev : List Event)
    (h : issue_await opcode fd fl script s = (.err e, s2, ev)) :
    op_method opcode fd fl s = (.err e, s2, ev) := by
  rcases hop : op_method opcode fd fl s with ⟨r0, s1, ev0⟩
  cases r0 with
  | ok j =>
    simp only [issue_await, hop, await_suspend] at h
    simp at h
  | err e2 =>
    simp only [issue_await, hop] at h
    simp only [Res.err.injEq, Prod.mk.injEq] at h
    obtain ⟨h1, h2, h3⟩ := h
    subst h1 h2 h3
    rfl

end uringpp

namespace uringpp

lemma get_sqe_cqAll (s : LoopState) : (get_sqe s).2.1.cqAll = s.cqAll := by
  by_cases h : s.sqPending.length < s.sqCapacity
  · rw [get_sqe_direct s h]
  · by_cases h2 : 0 < s.sqCapacity
    · rw [get_sqe_flush s h h2]
    · rw [get_sqe_throw s h h2]

lemma op_method_cqAll (opcode : Nat) (fd : Int) (fl : Nat) (s : LoopState) :
    (op_method opcode fd fl s).2.1.cqAll = s.cqAll := by
  rcases h : op_method opcode fd fl s with ⟨r, s1, ev⟩
  cases r with
  | ok i =>
    obtain ⟨s0, ev0, hg, _, hs1, _⟩ := op_method_ok_char _ _ _ _ _ _ _ h
    have hc := get_sqe_cqAll s
    rw [hg] at hc
    subst hs1
    simpa [io_uring_sqe_set_flags, io_uring_prep] using hc
  | err e =>
    rcases op_method_err_char _ _ _ _ _ _ _ h with ⟨_, hs1, _⟩ | ⟨_, hg⟩
    · subst hs1; rfl
    · have hc := get_sqe_cqAll s
      rw [hg] at hc
      exact hc

lemma issue_await_cqAll (opcode : Nat) (fd : Int) (fl : Nat)
    (script : List Nat) (s : LoopState) :
    (issue_await opcode fd fl script s).2.1.cqAll = s.cqAll := by
  rcases h : issue_await opcode fd fl script s with ⟨r, s2, ev⟩
  cases r with
  | ok p =>
    rcases p with ⟨i, id⟩
    obtain ⟨s1, ev0, hop, _, hs2, _⟩ := issue_await_ok_char _ _ _ _ _ _ _ _ _ h
    have hc := op_method_cqAll opcode fd fl s
    rw [hop] at hc
    subst hs2
    simpa [io_uring_sqe_set_data] using hc
  | err e =>
    have hop := issue_await_err_char _ _ _ _ _ _ _ _ h
    have hc := op_method_cqAll opcode fd fl s
    rw [hop] at hc
    exact hc

lemma run_script_cqAll (l : List Nat) (s : LoopState) :
    (run_script l s).2.1.cqAll = s.cqAll := by
  induction l generalizing s with
  | nil => rfl
  | cons op rest ih =>
    rcases hia : issue_await op 0 0 [] s with ⟨r, s1, ev⟩
    have hc := issue_await_cqAll op 0 0 [] s
    rw [hia] at hc
    cases r with
    | ok p =>
      rcases hrs : run_script rest s1 with ⟨r2, s2, ev2⟩
      have hc2 := ih s1
      rw [hrs] at hc2
      simp only [run_script, hia, hrs]
      exact hc2.trans hc
    | err e =>
      simp only [run_script, hia]
      exact hc

lemma issue_await_events (opcode : Nat) (fd : Int) (fl : Nat)
    (script : List Nat) (s : LoopState) :
    ∀ e ∈ (issue_await opcode fd fl script s).2.2, isIssueEvent e := by
  rcases h : issue_await opcode fd fl script s with ⟨r, s2, ev⟩
  cases r with
  | ok p =>
    rcases p with ⟨i, id⟩
    obtain ⟨s1, ev0, hop, _, _, hev⟩ := issue_await_ok_char _ _ _ _ _ _ _ _ _ h
    have hm := op_method_events opcode fd fl s
    rw [hop] at hm
    subst hev
    intro e he
    rcases List.mem_append.mp he with he | he
    · exact hm e he
    · simp only [List.mem_singleton] at he
      subst he
      rfl
  | err e2 =>
    have hop := issue_await_err_char _ _ _ _ _ _ _ _ h
    have hm := op_method_events opcode fd fl s
    rw [hop] at hm
    exact hm

lemma run_script_events (l : List Nat) (s : LoopState) :
    ∀ e ∈ (run_script l s).2.2, isIssueEvent e := by
  induction l generalizing s with
  | nil => intro e he; simp [run_script] at he
  | cons op rest ih =>
    rcases hia : issue_await op 0 0 [] s with ⟨r, s1, ev⟩
    have hm := issue_await_events op 0 0 [] s
    rw [hia] at hm
    cases r with
    | ok p =>
      rcases hrs : run_script rest s1 with ⟨r2, s2, ev2⟩
      have hm2 := ih s1
      rw [hrs] at hm2
      simp only [run_script, hia, hrs]
      intro e he
      rcases List.mem_append.mp he with he | he
      · exact hm e he
      · exact hm2 e he
    | err e2 =>
      simp only [run_script, hia]
      exact hm

end uringpp


namespace uringpp

lemma lookupBridge_map_setRc (id : BridgeId) (res : Int)
    (l : List (BridgeId × Bridge)) :
    lookupBridge id (l.map (fun p =>
        if p.1 = id then (p.1, { p.2 with rc := some res }) else p))
      = (lookupBridge id l).map (fun b => { b with rc := some res }) := by
  induction l with
  | nil => rfl
  | cons p rest ih =>
    rcases p with ⟨k, b⟩
    by_cases hk : k = id
    · subst hk
      simp only [lookupBridge, List.map_cons, if_pos rfl]
      rw [List.find?_cons_of_pos _ (by simp), List.find?_cons_of_pos _ (by simp)]
      simp
    · simp only [lookupBridge, List.map_cons, if_neg hk]
      rw [List.find?_cons_of_neg _ (by simp [hk]),
          List.find?_cons_of_neg _ (by simp [hk])]
      exact ih

lemma lookupBridge_setRc (id : BridgeId) (res : Int) (s : LoopState) :
    lookupBridge id (setRc id res s).bridges
      = (lookupBridge id s.bridges).map (fun b => { b with rc := some res }) := by
  simpa [setRc] using lookupBridge_map_setRc id res s.bridges

lemma drainStep_ok_char (c : Cqe) (s s' : LoopState) (ev : List Event)
    (h : drainStep c s = (.ok (), s', ev)) :
    ∃ id b ev2, c.token = some id
      ∧ lookupBridge id s.bridges = some b
      ∧ run_script b.script
          (setRc id c.res { s with cqeCount := s.cqeCount + 1 })
          = (.ok (), s', ev2)
      ∧ ev = [.stored id c.res, .resumed id] ++ ev2 := by
  cases htok : c.token with
  | none => simp [drainStep, htok] at h
  | some id =>
    simp only [drainStep, htok] at h
    cases hb : lookupBridge id s.bridges with
    | none =>
      rw [hb] at h
      simp at h
    | some b =>
      rw [hb] at h
      dsimp only at h
      rcases hrs : run_script b.script
          (setRc id c.res { s with cqeCount := s.cqeCount + 1 }) with ⟨r2, s2, ev2⟩
      rw [hrs] at h
      cases r2 with
      | ok u =>
        cases u
        simp only [Res.ok.injEq, Prod.mk.injEq] at h
        obtain ⟨-, h2, h3⟩ := h
        subst h2
        exact ⟨id, b, ev2, rfl, hb, hrs, h3.symm⟩
      | err e2 => simp at h

lemma drainStep_trace (c : Cqe) (s s' : LoopState) (ev : List Event)
    (h : drainStep c s = (.ok (), s', ev)) :
    ∃ id, c.token = some id
      ∧ resumedIds ev = [id]
      ∧ storedPairs ev = [(id, c.res)]
      ∧ s'.cqAll = s.cqAll := by
  obtain ⟨id, b, ev2, htok, hb, hrs, hev⟩ := drainStep_ok_char c s s' ev h
  have hiss := run_script_events b.script
      (setRc id c.res { s with cqeCount := s.cqeCount + 1 })
  rw [hrs] at hiss
  have hca := run_script_cqAll b.script
      (setRc id c.res { s with cqeCount := s.cqeCount + 1 })
  rw [hrs] at hca
  subst hev
  refine ⟨id, htok, ?_, ?_, ?_⟩
  · rw [show ([Event.stored id c.res, Event.resumed id] ++ ev2 : List Event)
        = [Event.stored id c.res, Event.resumed id] ++ ev2 from rfl,
        resumedIds_append, resumedIds_of_issue ev2 hiss]
    rfl
  · rw [storedPairs_append, storedPairs_of_issue ev2 hiss]
    rfl
  · simpa [setRc] using hca

lemma drain_append (xs ys : List Cqe) (s : LoopState) :
    drain (xs ++ ys) s =
      match drain xs s with
      | (Res.ok _, s1, e1) =>
        ((drain ys s1).1, (drain ys s1).2.1, e1 ++ (drain ys s1).2.2)
      | (Res.err e, s1, e1) => (Res.err e, s1, e1) := by
  induction xs generalizing s with
  | nil =>
    rcases hys : drain ys s with ⟨r, s2, e2⟩
    simp [drain, hys]
  | cons c rest ih =>
    simp only [List.cons_append, drain]
    rcases hstep : drainStep c s with ⟨r, s1, e1⟩
    cases r with
    | ok u =>
      cases u
      dsimp only
      simp only [List.append_eq]
      rw [ih s1]
      rcases hrest : drain rest s1 with ⟨r2, s2, e2⟩
      cases r2 with
      | ok u2 =>
        cases u2
        dsimp only
        rcases hys : drain ys s2 with ⟨r3, s3, e3⟩
        simp [List.append_assoc]
      | err e4 => simp
    | err e3 => simp

lemma drain_split (xs ys : List Cqe) (s s' : LoopState) (ev : List Event)
    (h : drain (xs ++ ys) s = (.ok (), s', ev)) :
    ∃ s1 e1 e2, drain xs s = (.ok (), s1, e1)
      ∧ drain ys s1 = (.ok (), s', e2) ∧ ev = e1 ++ e2 := by
  rw [drain_append xs ys s] at h
  rcases hxs : drain xs s with ⟨r, s1, e1⟩
  rw [hxs] at h
  cases r with
  | ok u =>
    cases u
    dsimp only at h
    rcases hys : drain ys s1 with ⟨r2, s2, e2⟩
    rw [hys] at h
    simp only [Prod.mk.injEq] at h
    obtain ⟨h1, h2, h3⟩ := h
    cases r2 with
    | ok u2 =>
      cases u2
      exact ⟨s1, e1, e2, rfl, by rw [hys, h2], h3.symm⟩
    | err e4 => simp at h1
  | err e3 => simp at h

lemma drain_ok_trace (xs : List Cqe) (s s' : LoopState) (ev : List Event)
    (h : drain xs s = (.ok (), s', ev)) :
    resumedIds ev = xs.filterMap Cqe.token
    ∧ storedPairs ev
        = xs.filterMap (fun c => c.token.map (fun id => (id, c.res)))
    ∧ s'.cqAll = s.cqAll := by
  induction xs generalizing s ev with
  | nil =>
    simp only [drain, Prod.mk.injEq] at h
    obtain ⟨-, h2, h3⟩ := h
    subst h2 h3
    simp [resumedIds, storedPairs]
  | cons c rest ih =>
    simp only [drain] at h
    rcases hstep : drainStep c s with ⟨r, s1, e1⟩
    rw [hstep] at h
    cases r with
    | ok u =>
      cases u
      dsimp only at h
      rcases hrest : drain rest s1 with ⟨r2, s2, e2⟩
      rw [hrest] at h
      simp only [Prod.mk.injEq] at h
      obtain ⟨h1, h2, h3⟩ := h
      cases r2 with
      | ok u2 =>
        cases u2
        subst h2
        obtain ⟨id, htok, hres, hsto, hca⟩ := drainStep_trace c s s1 e1 hstep
        obtain ⟨ihres, ihsto, ihca⟩ := ih s1 e2 (by rw [hrest])
        subst h3
        refine ⟨?_, ?_, ?_⟩
        · rw [resumedIds_append, hres, ihres]
          simp [htok]
        · rw [storedPairs_append, hsto, ihsto]
          simp [htok]
        · exact ihca.trans hca
      | err e4 => simp at h1
    | err e3 => simp at h

end uringpp

/-! ## Claim theorems -/

namespace uringpp

/-- C1: the claim states that during the drain step a completion entry whose
token is null is skipped without resuming any continuation and without
storing any result.  The drain loop in the source (event_loop.h:352-358)
instead casts and dereferences every token unconditionally, so the claim
fails: concretely, `close_detach 5` on a fresh loop leaves one close
submission whose user data is null, and the poll that receives the kernel's
completion for it dereferences the null token (undefined behaviour) instead
of skipping the entry. -/
theorem poll_null_token_dereference :
    (close_detach 5 (event_loop_init 8 [0, 22, 19] 0)).2.1.sqPending
        = [⟨19, 5, none, 0⟩]
    ∧ (poll [⟨-9, none⟩]
          (close_detach 5 (event_loop_init 8 [0, 22, 19] 0)).2.1).1
        = Res.err Err.nullTokenDeref := by
  exact ⟨rfl, rfl⟩

/-- C3: the claim states that cqe_count_ is zero when a poll cycle begins and
that every cycle acknowledges exactly the number of entries drained.  The
in-header constructor (event_loop.h:103-114) never initializes cqe_count_
(the out-of-line constructor in event_loop.cc:12-14 does, with
`cqe_count_(0)`), so with an indeterminate initial value of 1 the first poll
cycle begins with a nonzero counter, drains one completion, yet calls
`io_uring_cq_advance` with 2, pushing the acknowledged count past the single
entry the kernel ever posted. -/
theorem poll_overadvances_with_uninit_counter :
    (issue_await 0 0 0 [] (event_loop_init 8 [0] 1)).2.1.cqeCount = 1
    ∧ storedPairs (poll [⟨0, some 0⟩]
        (issue_await 0 0 0 [] (event_loop_init 8 [0] 1)).2.1).2.2 = [(0, 0)]
    ∧ advancedTotal (poll [⟨0, some 0⟩]
        (issue_await 0 0 0 [] (event_loop_init 8 [0] 1)).2.1).2.2 = 2
    ∧ (poll [⟨0, some 0⟩]
        (issue_await 0 0 0 [] (event_loop_init 8 [0] 1)).2.1).2.1.cqAcked = 2
    ∧ (poll [⟨0, some 0⟩]
        (issue_await 0 0 0 [] (event_loop_init 8 [0] 1)).2.1).2.1.cqAll.length
        = 1 := by
  exact ⟨rfl, rfl, rfl, rfl, rfl⟩

/-- C5: every primitive operation method checks that the operation's code is
in the capability set before doing anything else: an unsupported opcode
fails with the capability violation while the reactor state is unchanged (no
submission-queue slot acquired) and the trace is empty (no submission, no
encode). -/
theorem unsupported_op_fails_fast (opcode : Nat) (fd : Int) (fl : Nat)
    (s : LoopState) (h : opcode ∉ s.supportedOps) :
    op_method opcode fd fl s = (.err .capabilityViolation, s, []) :=
  op_method_unsupported opcode fd fl s h

/-- Witness for C5: requesting opcode 35 (renameat) on a loop whose probe
reported only nop/read/close support fails fast with no state change. -/
theorem unsupported_op_fails_fast_witness :
    op_method 35 1 0 (event_loop_init 4 [0, 22, 19] 0)
      = (.err .capabilityViolation, event_loop_init 4 [0, 22, 19] 0, []) :=
  unsupported_op_fails_fast 35 1 0 (event_loop_init 4 [0, 22, 19] 0)
    (by decide)

/-- C8: a detached close never suspends and registers no continuation — the
bridge set and the bridge counter are untouched and no suspension point runs
(no token is ever set).  But the second half of the claim, that a later
failing completion of that close resumes nothing, fails on this source: the
drain step (event_loop.h:352-358) dereferences the close's null token instead
of treating it as a normal no-registration case, faulting the poll. -/
theorem close_detach_never_suspends_drain_faults :
    (close_detach 7 (event_loop_init 4 [19] 0)).2.1.bridges = []
    ∧ (close_detach 7 (event_loop_init 4 [19] 0)).2.1.nextBridge = 0
    ∧ tokenSetCount (close_detach 7 (event_loop_init 4 [19] 0)).2.2 = 0
    ∧ (poll [⟨-9, none⟩] (close_detach 7 (event_loop_init 4 [19] 0)).2.1).1
        = Res.err Err.nullTokenDeref := by
  exact ⟨rfl, rfl, rfl, rfl⟩

end uringpp

namespace uringpp

/-- C2: backpressure policy of the slot allocator as seen through any
primitive operation method: (a) no call ever records more than one
`io_uring_submit` (at most one forced flush-and-retry, never a loop);
(b) a call that reports allocation exhaustion has as its entire trace the
acknowledgement of the drained-but-unacknowledged completion count followed
by the submission of every pending slot — in that order — with no encode
event, and it leaves the submission queue empty (the call's operation was
never encoded into any slot) and the drained counter reset; (c) when a slot
is directly free, no flush happens at all. -/
theorem op_method_backpressure (opcode : Nat) (fd : Int) (fl : Nat)
    (s : LoopState) :
    submitCount (op_method opcode fd fl s).2.2 ≤ 1
    ∧ ((op_method opcode fd fl s).1 = Res.err Err.badAlloc →
        (op_method opcode fd fl s).2.2
          = [Event.advanced s.cqeCount, Event.submitted s.sqPending.length]
        ∧ (op_method opcode fd fl s).2.1.sqPending = []
        ∧ (op_method opcode fd fl s).2.1.cqeCount = 0
        ∧ encodedCount opcode (op_method opcode fd fl s).2.2 = 0)
    ∧ (s.sqPending.length < s.sqCapacity →
        submitCount (op_method opcode fd fl s).2.2 = 0) := by
  by_cases hsup : opcode ∈ s.supportedOps
  · by_cases hfree : s.sqPending.length < s.sqCapacity
    · have hval : op_method opcode fd fl s
          = (.ok s.sqPending.length,
             io_uring_sqe_set_flags s.sqPending.length fl
               (io_uring_prep s.sqPending.length opcode fd
                 { s with sqPending := s.sqPending ++ [blankSqe] }),
             [.claimed s.sqPending.length,
              .encoded s.sqPending.length opcode]) := by
        simp [op_method, hsup, get_sqe_direct s hfree]
      rw [hval]
      refine ⟨by simp [submitCount], ?_, fun h2 => by simp [submitCount]⟩
      intro hbad
      simp at hbad
    · by_cases hcap : 0 < s.sqCapacity
      · have hval : op_method opcode fd fl s
            = (.ok 0,
               io_uring_sqe_set_flags 0 fl (io_uring_prep 0 opcode fd
                 { s with cqAcked := s.cqAcked + s.cqeCount, cqeCount := 0,
                          submittedOps := s.submittedOps ++ s.sqPending,
                          sqPending := [blankSqe] }),
               [.advanced s.cqeCount, .submitted s.sqPending.length,
                .claimed 0, .encoded 0 opcode]) := by
          simp [op_method, hsup, get_sqe_flush s hfree hcap]
        rw [hval]
        refine ⟨by simp [submitCount], ?_, fun h2 => absurd h2 hfree⟩
        intro hbad
        simp at hbad
      · have hval : op_method opcode fd fl s
            = (.err .badAlloc,
               { s with cqAcked := s.cqAcked + s.cqeCount, cqeCount := 0,
                        submittedOps := s.submittedOps ++ s.sqPending,
                        sqPending := [] },
               [.advanced s.cqeCount, .submitted s.sqPending.length]) := by
          simp [op_method, hsup, get_sqe_throw s hfree hcap]
        rw [hval]
        refine ⟨by simp [submitCount], ?_, fun h2 => absurd h2 hfree⟩
        intro hbad
        exact ⟨rfl, rfl, rfl, by simp [encodedCount]⟩
  · rw [op_method_unsupported opcode fd fl s hsup]
    refine ⟨by simp [submitCount], ?_, fun h2 => by simp [submitCount]⟩
    intro hbad
    simp at hbad

/-- Witness for C2: a loop constructed with zero submission-queue entries can
never allocate a slot; a read call performs the single forced flush (advance
of the zero drained entries, submission of the zero pending slots) and then
reports allocation exhaustion with nothing encoded. -/
theorem op_method_backpressure_witness :
    submitCount (op_method 22 3 0 (event_loop_init 0 [22] 0)).2.2 ≤ 1
    ∧ (op_method 22 3 0 (event_loop_init 0 [22] 0)).2.2
        = [Event.advanced 0, Event.submitted 0]
    ∧ (op_method 22 3 0 (event_loop_init 0 [22] 0)).2.1.sqPending = []
    ∧ encodedCount 22 (op_method 22 3 0 (event_loop_init 0 [22] 0)).2.2
        = 0 := by
  have h := op_method_backpressure 22 3 0 (event_loop_init 0 [22] 0)
  have hb := h.2.1 (by decide)
  exact ⟨h.1, hb.1, hb.2.1, hb.2.2.2⟩

end uringpp

namespace uringpp

/-- C4: within one drain pass completions are handled strictly in
kernel-delivered FIFO order: a successful drain of `xs ++ ys` resumes the
bridges in exactly the delivered order (the resumed-id trace equals the
entry tokens in order), stores result codes entry by entry in that same
order, never adds to the completion list it is draining (operations issued
by resumed handlers only land in the submission side, affecting future
cycles), and factors sequentially — the entries `xs` are fully processed,
synchronously, from the starting state before the first entry of `ys` is
examined, so resuming completion k never observes effects of completion
k+1. -/
theorem drain_fifo_synchronous (xs ys : List Cqe) (s s' : LoopState)
    (ev : List Event) (h : drain (xs ++ ys) s = (.ok (), s', ev)) :
    resumedIds ev = (xs ++ ys).filterMap Cqe.token
    ∧ storedPairs ev = (xs ++ ys).filterMap
        (fun c => c.token.map (fun id => (id, c.res)))
    ∧ s'.cqAll = s.cqAll
    ∧ ∃ s1 e1 e2, drain xs s = (.ok (), s1, e1)
        ∧ drain ys s1 = (.ok (), s', e2) ∧ ev = e1 ++ e2 := by
  obtain ⟨h1, h2, h3⟩ := drain_ok_trace (xs ++ ys) s s' ev h
  exact ⟨h1, h2, h3, drain_split xs ys s s' ev h⟩

/-- Witness for C4: draining two completions — the second of which resumes a
handler that issues a new operation — resumes bridges 0 then 1 in kernel
order, stores the codes in order, and the handler's new operation is only
queued on the submission side. -/
theorem drain_fifo_synchronous_witness :
    resumedIds [Event.stored 0 5, Event.resumed 0, Event.stored 1 7,
        Event.resumed 1, Event.claimed 0, Event.encoded 0 0,
        Event.tokenSet 0 2] = [0, 1]
    ∧ storedPairs [Event.stored 0 5, Event.resumed 0, Event.stored 1 7,
        Event.resumed 1, Event.claimed 0, Event.encoded 0 0,
        Event.tokenSet 0 2] = [(0, 5), (1, 7)] := by
  have h := drain_fifo_synchronous [⟨5, some 0⟩] [⟨7, some 1⟩]
    { sqCapacity := 8, sqPending := [], submittedOps := [], cqAll := [],
      cqAcked := 0, cqeCount := 0,
      bridges := [(0, ⟨[], none⟩), (1, ⟨[0], none⟩)], nextBridge := 2,
      supportedOps := [0] }
    { sqCapacity := 8,
      sqPending := [⟨0, 0, some 2, 0⟩], submittedOps := [], cqAll := [],
      cqAcked := 0, cqeCount := 2,
      bridges := [(0, ⟨[], some 5⟩), (1, ⟨[0], some 7⟩), (2, ⟨[], none⟩)],
      nextBridge := 3, supportedOps := [0] }
    [Event.stored 0 5, Event.resumed 0, Event.stored 1 7, Event.resumed 1,
     Event.claimed 0, Event.encoded 0 0, Event.tokenSet 0 2]
    (by decide)
  exact ⟨h.1, h.2.1⟩

/-- C7: a negative completion result is stored into the bridge and surfaced
as the awaited value, not thrown by the reactor: the drain step succeeds on
such an entry regardless of the sign, the bridge afterwards holds the
negative code and `await_resume` hands exactly that code to the coroutine;
translation into a thrown domain failure happens only in the façade layer —
`check_nerrno` (error.h:41-45) throws exactly when its argument is below
zero, so `file::open` (file.h:43-48) fails exactly on a negative awaited
descriptor. -/
theorem negative_result_surfaced_not_thrown (res : Int) (id : BridgeId)
    (s : LoopState) (b : Bridge) (hb : lookupBridge id s.bridges = some b)
    (hscript : b.script = []) :
    (∃ s', drainStep ⟨res, some id⟩ s
          = (.ok (), s', [Event.stored id res, Event.resumed id])
        ∧ lookupBridge id s'.bridges = some ⟨[], some res⟩
        ∧ await_resume ⟨[], some res⟩ = some res)
    ∧ (check_nerrno res = true ↔ res < 0)
    ∧ (file_open_after_await res = none ↔ res < 0) := by
  rcases b with ⟨bs, brc⟩
  simp only at hscript
  subst hscript
  refine ⟨⟨setRc id res { s with cqeCount := s.cqeCount + 1 }, ?_, ?_, rfl⟩,
          ?_, ?_⟩
  · simp only [drainStep]
    rw [hb]
    simp [run_script]
  · have : lookupBridge id
        (setRc id res { s with cqeCount := s.cqeCount + 1 }).bridges
        = (lookupBridge id s.bridges).map (fun b => { b with rc := some res }) :=
      lookupBridge_setRc id res { s with cqeCount := s.cqeCount + 1 }
    rw [this, hb]
    rfl
  · simp [check_nerrno]
  · simp [file_open_after_await, check_nerrno]

/-- Witness for C7: a completion with code -2 for bridge 3 is drained
successfully, the bridge then holds -2 as its awaited value, and the façade
check fails exactly because -2 is negative. -/
theorem negative_result_surfaced_not_thrown_witness :
    (∃ s', drainStep ⟨-2, some 3⟩
          { sqCapacity := 4, sqPending := [], submittedOps := [], cqAll := [],
            cqAcked := 0, cqeCount := 0, bridges := [(3, ⟨[], none⟩)],
            nextBridge := 4, supportedOps := [19] }
          = (.ok (), s', [Event.stored 3 (-2), Event.resumed 3])
        ∧ lookupBridge 3 s'.bridges = some ⟨[], some (-2)⟩
        ∧ await_resume ⟨[], some (-2)⟩ = some (-2))
    ∧ (check_nerrno (-2) = true ↔ (-2 : Int) < 0)
    ∧ (file_open_after_await (-2) = none ↔ (-2 : Int) < 0) :=
  negative_result_surfaced_not_thrown (-2) 3
    { sqCapacity := 4, sqPending := [], submittedOps := [], cqAll := [],
      cqAcked := 0, cqeCount := 0, bridges := [(3, ⟨[], none⟩)],
      nextBridge := 4, supportedOps := [19] }
    ⟨[], none⟩ (by decide) rfl

end uringpp

namespace uringpp

lemma get?_set_of_lt {α : Type} (l : List α) (i : Nat) (a : α)
    (h : i < l.length) : (l.set i a).get? i = some a := by
  rw [List.get?_eq_getElem?]
  simp [List.getElem?_set_self', h]

lemma get_sqe_ok_slot (s s0 : LoopState) (i : Nat) (ev : List Event)
    (h : get_sqe s = (.ok i, s0, ev)) :
    i + 1 = s0.sqPending.length
    ∧ s0.sqPending.get? i = some blankSqe
    ∧ s0.bridges = s.bridges
    ∧ s0.nextBridge = s.nextBridge := by
  by_cases hfree : s.sqPending.length < s.sqCapacity
  · rw [get_sqe_direct s hfree] at h
    simp only [Prod.mk.injEq, Res.ok.injEq] at h
    obtain ⟨h1, h2, -⟩ := h
    subst h1
    refine ⟨?_, ?_, ?_, ?_⟩ <;> rw [← h2] <;> try rfl
    · simp
    · rw [List.get?_eq_getElem?]
      simp [List.getElem?_concat_length]
  · by_cases hcap : 0 < s.sqCapacity
    · rw [get_sqe_flush s hfree hcap] at h
      simp only [Prod.mk.injEq, Res.ok.injEq] at h
      obtain ⟨h1, h2, -⟩ := h
      subst h1
      refine ⟨?_, ?_, ?_, ?_⟩ <;> rw [← h2] <;> try rfl
    · rw [get_sqe_throw s hfree hcap] at h
      simp at h

/-- C6: awaiting an operation's bridge always suspends — `await_ready` is
false — and the suspension point first records the continuation and then
writes the bridge's identity into the slot as the completion token as the
very last observable action before control returns: the trace of issuing and
awaiting an operation ends with the token registration (so nothing, in
particular no submission, happens between registering the token and
yielding), the slot afterwards holds the fully encoded entry carrying that
token and the flag byte, and the bridge with its recorded continuation is
registered. -/
theorem await_always_suspends_token_registered (opcode : Nat) (fd : Int)
    (fl : Nat) (script : List Nat) (s s2 : LoopState) (i : Nat)
    (id : BridgeId) (ev : List Event)
    (h : issue_await opcode fd fl script s = (.ok (i, id), s2, ev)) :
    await_ready = false
    ∧ (∃ ev0, ev = ev0 ++ [Event.tokenSet i id])
    ∧ s2.sqPending.get? i = some ⟨opcode, fd, some id, fl⟩
    ∧ (id, (⟨script, none⟩ : Bridge)) ∈ s2.bridges := by
  obtain ⟨s1, ev0, hop, hid, hs2, hev⟩ :=
    issue_await_ok_char opcode fd fl script s s2 i id ev h
  obtain ⟨s0, evg, hg, hev0, hs1, -⟩ :=
    op_method_ok_char opcode fd fl s s1 i ev0 hop
  obtain ⟨hlen, hslot, hbr, hnb⟩ := get_sqe_ok_slot s s0 i evg hg
  have hi : i < s0.sqPending.length := by omega
  refine ⟨rfl, ⟨ev0, hev⟩, ?_, ?_⟩
  · subst hs2 hs1
    have hprep : (io_uring_prep i opcode fd s0).sqPending.get? i
        = some ⟨opcode, fd, none, 0⟩ := by
      simp only [io_uring_prep]
      exact get?_set_of_lt _ _ _ hi
    have hflag : (io_uring_sqe_set_flags i fl
        (io_uring_prep i opcode fd s0)).sqPending.get? i
        = some ⟨opcode, fd, none, fl⟩ := by
      simp only [io_uring_sqe_set_flags, hprep]
      refine get?_set_of_lt _ _ _ ?_
      simpa [io_uring_prep] using hi
    simp only [io_uring_sqe_set_data, hflag]
    refine get?_set_of_lt _ _ _ ?_
    simpa [io_uring_sqe_set_flags, io_uring_prep] using hi
  · subst hs2
    simp [io_uring_sqe_set_data]

/-- Witness for C6: issuing and awaiting a read on a fresh loop suspends with
the token of bridge 0 registered in slot 0 as the final step, the slot fully
encoded. -/
theorem await_always_suspends_token_registered_witness :
    await_ready = false
    ∧ (∃ ev0, ([Event.claimed 0, Event.encoded 0 22, Event.tokenSet 0 0]
          : List Event) = ev0 ++ [Event.tokenSet 0 0])
    ∧ ({ sqCapacity := 4, sqPending := [⟨22, 3, some 0, 2⟩],
         submittedOps := [], cqAll := [], cqAcked := 0, cqeCount := 0,
         bridges := [(0, ⟨[], none⟩)], nextBridge := 1,
         supportedOps := [22] } : LoopState).sqPending.get? 0
        = some ⟨22, 3, some 0, 2⟩
    ∧ ((0 : BridgeId), (⟨[], none⟩ : Bridge))
        ∈ ({ sqCapacity := 4, sqPending := [⟨22, 3, some 0, 2⟩],
             submittedOps := [], cqAll := [], cqAcked := 0, cqeCount := 0,
             bridges := [(0, ⟨[], none⟩)], nextBridge := 1,
             supportedOps := [22] } : LoopState).bridges :=
  await_always_suspends_token_registered 22 3 2 []
    (event_loop_init 4 [22] 0)
    { sqCapacity := 4, sqPending := [⟨22, 3, some 0, 2⟩],
      submittedOps := [], cqAll := [], cqAcked := 0, cqeCount := 0,
      bridges := [(0, ⟨[], none⟩)], nextBridge := 1, supportedOps := [22] }
    0 0 [Event.claimed 0, Event.encoded 0 22, Event.tokenSet 0 0]
    (by decide)

end uringpp

namespace uringpp

lemma encodedCount_append (op : Nat) (a b : List Event) :
    encodedCount op (a ++ b) = encodedCount op a + encodedCount op b := by
  simp [encodedCount, List.filter_append]

lemma tokenSetCount_append (a b : List Event) :
    tokenSetCount (a ++ b) = tokenSetCount a + tokenSetCount b := by
  simp [tokenSetCount, List.filter_append]

lemma get_sqe_trace_counts (s : LoopState) (op : Nat) :
    encodedCount op (get_sqe s).2.2 = 0
    ∧ tokenSetCount (get_sqe s).2.2 = 0 := by
  by_cases hfree : s.sqPending.length < s.sqCapacity
  · rw [get_sqe_direct s hfree]
    exact ⟨rfl, rfl⟩
  · by_cases hcap : 0 < s.sqCapacity
    · rw [get_sqe_flush s hfree hcap]
      exact ⟨rfl, rfl⟩
    · rw [get_sqe_throw s hfree hcap]
      exact ⟨rfl, rfl⟩

lemma op_method_ok_counts (opcode : Nat) (fd : Int) (fl : Nat)
    (s s1 : LoopState) (i : Nat) (ev : List Event)
    (h : op_method opcode fd fl s = (.ok i, s1, ev)) :
    encodedCount opcode ev = 1 ∧ tokenSetCount ev = 0 := by
  obtain ⟨s0, ev0, hg, hev, -, -⟩ := op_method_ok_char opcode fd fl s s1 i ev h
  have hc := get_sqe_trace_counts s opcode
  rw [hg] at hc
  subst hev
  rw [encodedCount_append, tokenSetCount_append, hc.1, hc.2]
  simp [encodedCount, tokenSetCount]

lemma op_method_err_counts (opcode : Nat) (fd : Int) (fl : Nat)
    (s s1 : LoopState) (e : Err) (ev : List Event) (op2 : Nat)
    (h : op_method opcode fd fl s = (.err e, s1, ev)) :
    encodedCount op2 ev = 0 ∧ tokenSetCount ev = 0 := by
  rcases op_method_err_char opcode fd fl s s1 e ev h with ⟨-, -, hev⟩ | ⟨-, hg⟩
  · subst hev
    exact ⟨rfl, rfl⟩
  · have hc := get_sqe_trace_counts s op2
    rw [hg] at hc
    exact hc

lemma issue_await_ok_counts (opcode : Nat) (fd : Int) (fl : Nat)
    (script : List Nat) (s s2 : LoopState) (i : Nat) (id : BridgeId)
    (ev : List Event)
    (h : issue_await opcode fd fl script s = (.ok (i, id), s2, ev)) :
    encodedCount opcode ev = 1 ∧ tokenSetCount ev = 1 := by
  obtain ⟨s1, ev0, hop, -, -, hev⟩ :=
    issue_await_ok_char opcode fd fl script s s2 i id ev h
  obtain ⟨hc1, hc2⟩ := op_method_ok_counts opcode fd fl s s1 i ev0 hop
  subst hev
  rw [encodedCount_append, tokenSetCount_append, hc1, hc2]
  simp [encodedCount, tokenSetCount]

/-- C9: closing a façade object twice — a completed explicit close() followed
by destruction — issues only one suspending close for its descriptor: the
completed close() stores -1 into the descriptor, exactly one close operation
is encoded and exactly one completion token is registered (the one
suspension), and the destructor on the already-closed object is a complete
no-op: no event, reactor state untouched. -/
theorem explicit_close_then_dtor_single_close (f : Wrapper) (s : LoopState)
    (hfd : f.fd > 0) (f1 : Wrapper) (s1 : LoopState) (ev : List Event)
    (h : wrapper_close f s = (.ok (), f1, s1, ev)) :
    f1.fd = -1
    ∧ encodedCount IORING_OP_CLOSE ev = 1
    ∧ tokenSetCount ev = 1
    ∧ wrapper_dtor f1 s1 = (.ok (), s1, []) := by
  simp only [wrapper_close, if_pos hfd] at h
  rcases hia : issue_await IORING_OP_CLOSE f.fd 0 [] s with ⟨r, sx, evx⟩
  rw [hia] at h
  cases r with
  | ok p =>
    rcases p with ⟨i, id⟩
    simp only [Prod.mk.injEq] at h
    obtain ⟨-, hf1, hs1, hev⟩ := h
    subst hf1 hs1 hev
    obtain ⟨hc1, hc2⟩ :=
      issue_await_ok_counts IORING_OP_CLOSE f.fd 0 [] s sx i id evx hia
    exact ⟨rfl, hc1, hc2, by simp [wrapper_dtor]⟩
  | err e =>
    simp at h

/-- Witness for C9: explicitly closing a file wrapping descriptor 5 on a
fresh loop encodes exactly one close with one registered token, marks the
wrapper closed, and the subsequent destructor does nothing. -/
theorem explicit_close_then_dtor_single_close_witness :
    (⟨-1⟩ : Wrapper).fd = -1
    ∧ encodedCount IORING_OP_CLOSE
        [Event.claimed 0, Event.encoded 0 19, Event.tokenSet 0 0] = 1
    ∧ tokenSetCount
        [Event.claimed 0, Event.encoded 0 19, Event.tokenSet 0 0] = 1
    ∧ wrapper_dtor ⟨-1⟩
        { sqCapacity := 8, sqPending := [⟨19, 5, some 0, 0⟩],
          submittedOps := [], cqAll := [], cqAcked := 0, cqeCount := 0,
          bridges := [(0, ⟨[], none⟩)], nextBridge := 1,
          supportedOps := [19] }
        = (.ok (),
           { sqCapacity := 8, sqPending := [⟨19, 5, some 0, 0⟩],
             submittedOps := [], cqAll := [], cqAcked := 0, cqeCount := 0,
             bridges := [(0, ⟨[], none⟩)], nextBridge := 1,
             supportedOps := [19] }, []) :=
  explicit_close_then_dtor_single_close ⟨5⟩ (event_loop_init 8 [19] 0)
    (by decide) ⟨-1⟩
    { sqCapacity := 8, sqPending := [⟨19, 5, some 0, 0⟩],
      submittedOps := [], cqAll := [], cqAcked := 0, cqeCount := 0,
      bridges := [(0, ⟨[], none⟩)], nextBridge := 1, supportedOps := [19] }
    [Event.claimed 0, Event.encoded 0 19, Event.tokenSet 0 0]
    (by decide)

end uringpp

namespace uringpp

lemma encodedCount_nil (op : Nat) : encodedCount op ([] : List Event) = 0 :=
  rfl

lemma wrapper_close_char (f : Wrapper) (s : LoopState) (hf : f.fd > 0) :
    (∃ s1 ev, wrapper_close f s = (.ok (), ⟨-1⟩, s1, ev)
        ∧ encodedCount IORING_OP_CLOSE ev = 1)
    ∨ (∃ e s1 ev, wrapper_close f s = (.err e, f, s1, ev)
        ∧ encodedCount IORING_OP_CLOSE ev = 0) := by
  simp only [wrapper_close, if_pos hf]
  rcases hia : issue_await IORING_OP_CLOSE f.fd 0 [] s with ⟨r, sx, evx⟩
  cases r with
  | ok p =>
    rcases p with ⟨i, id⟩
    left
    refine ⟨sx, evx, rfl, ?_⟩
    exact (issue_await_ok_counts IORING_OP_CLOSE f.fd 0 [] s sx i id evx
      hia).1
  | err e =>
    right
    have hop := issue_await_err_char IORING_OP_CLOSE f.fd 0 [] s sx e evx hia
    refine ⟨e, sx, evx, rfl, ?_⟩
    exact (op_method_err_counts IORING_OP_CLOSE f.fd 0 s sx e evx
      IORING_OP_CLOSE hop).1

lemma wrapper_dtor_counts (f : Wrapper) (s : LoopState) :
    encodedCount IORING_OP_CLOSE (wrapper_dtor f s).2.2 ≤ 1
    ∧ tokenSetCount (wrapper_dtor f s).2.2 = 0 := by
  by_cases hf : f.fd > 0
  · simp only [wrapper_dtor, if_pos hf, close_detach, event_loop_close]
    rcases hop : op_method IORING_OP_CLOSE f.fd 0 s with ⟨r, sx, evx⟩
    cases r with
    | ok i =>
      obtain ⟨h1, h2⟩ :=
        op_method_ok_counts IORING_OP_CLOSE f.fd 0 s sx i evx hop
      simp [h1, h2]
    | err e =>
      obtain ⟨h1, h2⟩ := op_method_err_counts IORING_OP_CLOSE f.fd 0 s sx e
        evx IORING_OP_CLOSE hop
      simp [h1, h2]
  · simp [wrapper_dtor, hf, encodedCount, tokenSetCount]

lemma lifecycle_nonpos (acts : List WAction) (f : Wrapper) (s : LoopState)
    (h : ¬ f.fd > 0) : (lifecycle f s acts).2 = [] := by
  induction acts generalizing f s with
  | nil => simp [lifecycle, wrapper_dtor, h]
  | cons a rest ih =>
    cases a with
    | close =>
      rcases hl : lifecycle f s rest with ⟨s2, ev2⟩
      have hih := ih f s h
      rw [hl] at hih
      simp [lifecycle, wrapper_close, if_neg h, hl, hih]
    | moveOut =>
      simp only [lifecycle, wrapper_move]
      exact ih ⟨-1⟩ s (by norm_num)

lemma lifecycle_close_le_one (acts : List WAction) (f : Wrapper)
    (s : LoopState) :
    encodedCount IORING_OP_CLOSE (lifecycle f s acts).2 ≤ 1 := by
  induction acts generalizing f s with
  | nil =>
    rcases hd : wrapper_dtor f s with ⟨r, s1, ev⟩
    have hc := (wrapper_dtor_counts f s).1
    rw [hd] at hc
    simpa [lifecycle, hd] using hc
  | cons a rest ih =>
    cases a with
    | close =>
      by_cases hf : f.fd > 0
      · rcases wrapper_close_char f s hf with
          ⟨s1, ev, hcl, hc1⟩ | ⟨e, s1, ev, hcl, hc0⟩
        · rcases hl : lifecycle ⟨-1⟩ s1 rest with ⟨s2, ev2⟩
          have hnp := lifecycle_nonpos rest ⟨-1⟩ s1 (by norm_num)
          rw [hl] at hnp
          simp only at hnp
          subst hnp
          simp [lifecycle, hcl, hl, encodedCount_append, hc1,
                encodedCount_nil]
        · rcases hl : lifecycle f s1 rest with ⟨s2, ev2⟩
          have hih := ih f s1
          rw [hl] at hih
          simpa [lifecycle, hcl, hl, encodedCount_append, hc0] using hih
      · rcases hl : lifecycle f s rest with ⟨s2, ev2⟩
        have hih := ih f s
        rw [hl] at hih
        simpa [lifecycle, wrapper_close, if_neg hf, hl] using hih
    | moveOut =>
      rcases hl : lifecycle ⟨-1⟩ s rest with ⟨s2, ev2⟩
      have hnp := lifecycle_nonpos rest ⟨-1⟩ s (by norm_num)
      rw [hl] at hnp
      simp only at hnp
      subst hnp
      simp [lifecycle, wrapper_move, hl, encodedCount_nil]

lemma pipe_dtor_nonpos (p : PipeW) (s : LoopState) (h0 : ¬ p.fd0 > 0)
    (h1 : ¬ p.fd1 > 0) : pipe_dtor p s = (.ok (), s, []) := by
  simp [pipe_dtor, h0, h1]

/-- C10: every façade wrapper issues a close — explicit or detached — only
when its stored descriptor is strictly greater than zero: a wrapper with a
non-positive descriptor (including descriptor 0, which is never closed at
all) performs no action on close or destruction; move construction keeps the
descriptor in the target and leaves the source at -1; a whole lifecycle
starting from a moved-from (or otherwise non-positive) wrapper produces no
reactor activity at all; along any lifecycle (explicit closes, moves, final
destruction) at most one close operation is ever encoded for the wrapper's
descriptor; and the two-descriptor pipe wrapper behaves the same: a
moved-from pipe's destructor does nothing and its moved-from source holds
-1 in both slots. -/
theorem wrapper_close_guard_invariants :
    (∀ f : Wrapper, ∀ s : LoopState, ¬ f.fd > 0 →
        wrapper_close f s = (.ok (), f, s, [])
        ∧ wrapper_dtor f s = (.ok (), s, []))
    ∧ (∀ f : Wrapper,
        (wrapper_move f).1.fd = f.fd ∧ (wrapper_move f).2.fd = -1)
    ∧ (∀ s : LoopState, ∀ acts : List WAction, ∀ f : Wrapper, ¬ f.fd > 0 →
        (lifecycle f s acts).2 = [])
    ∧ (∀ s : LoopState, ∀ acts : List WAction, ∀ f : Wrapper,
        encodedCount IORING_OP_CLOSE (lifecycle f s acts).2 ≤ 1)
    ∧ (∀ p : PipeW, (pipe_move p).1 = p ∧ (pipe_move p).2 = ⟨-1, -1⟩)
    ∧ (∀ p : PipeW, ∀ s : LoopState, ¬ p.fd0 > 0 → ¬ p.fd1 > 0 →
        pipe_dtor p s = (.ok (), s, [])) := by
  refine ⟨?_, ?_, ?_, ?_, ?_, ?_⟩
  · intro f s h
    exact ⟨by simp [wrapper_close, h], by simp [wrapper_dtor, h]⟩
  · intro f
    exact ⟨rfl, rfl⟩
  · intro s acts f h
    exact lifecycle_nonpos acts f s h
  · intro s acts f
    exact lifecycle_close_le_one acts f s
  · intro p
    exact ⟨rfl, rfl⟩
  · intro p s h0 h1
    exact pipe_dtor_nonpos p s h0 h1

/-- Witness for C10: a wrapper holding descriptor 0 is never closed; a
double-close lifecycle on descriptor 7 encodes at most one close; a
moved-from pipe's destructor is a no-op. -/
theorem wrapper_close_guard_invariants_witness :
    wrapper_close ⟨0⟩ (event_loop_init 2 [19] 0)
      = (.ok (), ⟨0⟩, event_loop_init 2 [19] 0, [])
    ∧ encodedCount IORING_OP_CLOSE
        (lifecycle ⟨7⟩ (event_loop_init 8 [19] 0)
          [WAction.close, WAction.close]).2 ≤ 1
    ∧ pipe_dtor ⟨-1, -1⟩ (event_loop_init 2 [19] 0)
      = (.ok (), event_loop_init 2 [19] 0, []) :=
  ⟨(wrapper_close_guard_invariants.1 ⟨0⟩ (event_loop_init 2 [19] 0)
      (by decide)).1,
   wrapper_close_guard_invariants.2.2.2.1 (event_loop_init 8 [19] 0)
     [WAction.close, WAction.close] ⟨7⟩,
   wrapper_close_guard_invariants.2.2.2.2.2 ⟨-1, -1⟩
     (event_loop_init 2 [19] 0) (by decide) (by decide)⟩

end uringpp
